import Mathlib

/-!
Shallow embedding of the Self-Improving Prompt Optimization API
(promotion pipeline, evaluator aggregation, template rendering, storage
transitions, LLM response cache), translated from the Python sources under
`src/`.  Python floats are modelled as rationals (ℚ); dicts whose values
are scores as association lists `List (String × ℚ)` with first-match
lookup; exceptions as `Option`/`Except`.  External collaborators (the LLM
completion capability, the JSON-schema validation library) are abstracted
as function parameters, matching the spec's "external collaborators"
boundary, and are never stubbed where a claim depends on them.
-/

namespace PromptOpt

/-- First-match lookup in an association list, mirroring Python dict
access (dict keys are unique; the models keep first-match semantics). -/
def lookupKV (m : List (String × ℚ)) (k : String) : Option ℚ :=
  (m.find? (fun p => p.1 = k)).map Prod.snd

/-- `m.get(k, d)` on a Python dict of floats. -/
def getD (m : List (String × ℚ)) (k : String) (d : ℚ) : ℚ :=
  (lookupKV m k).getD d

/-- Keys of an association-list dict. -/
def keysOf (m : List (String × ℚ)) : List String := m.map Prod.fst

/-! ### Settings (src/config.py)
Default guardrail thresholds from `Settings`; Python float literals are
represented by the exact rationals they denote in the source text. -/

def min_improvement_threshold : ℚ := 5/100
def min_absolute_score : ℚ := 7/10
def regression_threshold : ℚ := 2/100
def critical_case_pass_rate : ℚ := 95/100
def format_pass_rate : ℚ := 98/100

/-! ### Dataset (src/evaluation/dataset.py) -/

/-- One dataset case.  `meta_critical` is the truthiness of
`case.get("metadata", {}).get("critical", False)`; `context` is the
optional context dict (values modelled as strings, only key identity
matters to the claims). -/
structure Case where
  input : List (String × String)
  expected_output : Option String
  rubric : Option String
  context : Option (List (String × String))
  meta_critical : Bool
deriving DecidableEq, Repr

structure Dataset where
  dataset_id : String
  cases : List Case
deriving DecidableEq, Repr

/-- `Dataset.get_critical_cases`: cases whose metadata carries a truthy
`critical` flag. -/
def Dataset.get_critical_cases (d : Dataset) : List Case :=
  d.cases.filter (fun c => c.meta_critical)

/-! ### ExperimentResult (src/models.py) — the fields the promoter reads. -/

structure ExperimentResult where
  experiment_id : ℕ
  baseline_metrics : List (String × ℚ)
  candidate_metrics : List (String × ℚ)
  improvement_delta : List (String × ℚ)
deriving DecidableEq, Repr

/-! ### Promoter guardrails (src/improvement/promoter.py, `_run_guardrails`)

Each numbered check of the source contributes its own sublist of issue
messages; `guardrailIssues` concatenates them in the source's sequential
order (the Python code appends to one `issues` list, never returning
early).  Python's `f"{x:.3f}"` digit formatting is abstracted to the exact
rational's `toString`; no claim depends on digit rendering. -/

def msgImprovement (delta : ℚ) : String :=
  "Aggregate improvement (" ++ toString delta ++ ") below threshold (" ++
    toString min_improvement_threshold ++ ")"

def msgAbsolute (score : ℚ) : String :=
  "Candidate absolute score (" ++ toString score ++ ") below minimum (" ++
    toString min_absolute_score ++ ")"

def msgRegression (dim : String) (delta : ℚ) : String :=
  "Regression in " ++ dim ++ ": " ++ toString delta ++ " (threshold: -" ++
    toString regression_threshold ++ ")"

def msgFormat (rate : ℚ) : String :=
  "Format pass rate (" ++ toString rate ++ ") below threshold (" ++
    toString format_pass_rate ++ ")"

def msgCritical (rate : ℚ) : String :=
  "Pass rate (" ++ toString rate ++ ") below critical threshold (" ++
    toString critical_case_pass_rate ++ ")"

/-- Check 1: minimum aggregate improvement. -/
def issuesImprovement (er : ExperimentResult) : List String :=
  let aggregate_delta := getD er.improvement_delta "aggregate" 0
  if aggregate_delta < min_improvement_threshold then
    [msgImprovement aggregate_delta] else []

/-- Check 2: minimum absolute candidate score. -/
def issuesAbsolute (er : ExperimentResult) : List String :=
  let candidate_aggregate := getD er.candidate_metrics "aggregate" 0
  if candidate_aggregate < min_absolute_score then
    [msgAbsolute candidate_aggregate] else []

/-- Check 3: per-dimension regressions — the loop over
`improvement_delta.items()` appends one message per regressed dimension. -/
def issuesRegressions (er : ExperimentResult) : List String :=
  (er.improvement_delta.filter
    (fun p => p.1 ≠ "aggregate" ∧ p.2 < -regression_threshold)).map
    (fun p => msgRegression p.1 p.2)

/-- Check 4: format-adherence pass rate. -/
def issuesFormat (er : ExperimentResult) : List String :=
  let rate := getD er.candidate_metrics "format_adherence" 0
  if rate < format_pass_rate then [msgFormat rate] else []

/-- `if dataset: critical_cases = dataset.get_critical_cases() else: []`.
Python truthiness of a `Dataset` goes through `__len__`, so a present but
empty dataset also takes the `else` branch. -/
def criticalOf : Option Dataset → List Case
  | none => []
  | some d => if d.cases.length = 0 then [] else d.get_critical_cases

/-- Check 5: critical-case pass rate, run only when critical cases exist. -/
def issuesCritical (er : ExperimentResult) (ds : Option Dataset) : List String :=
  if criticalOf ds ≠ [] then
    let rate := getD er.candidate_metrics "pass_rate" 0
    if rate < critical_case_pass_rate then [msgCritical rate] else []
  else []

/-- The full `issues` list accumulated by `_run_guardrails`. -/
def guardrailIssues (er : ExperimentResult) (ds : Option Dataset) : List String :=
  issuesImprovement er ++ issuesAbsolute er ++ issuesRegressions er ++
    issuesFormat er ++ issuesCritical er ds

structure GuardrailChecks where
  all_passed : Bool
  issues : List String
  rationale : String
deriving DecidableEq, Repr

/-- `PromptPromoter._run_guardrails`. -/
def run_guardrails (er : ExperimentResult) (ds : Option Dataset) : GuardrailChecks :=
  let issues := guardrailIssues er ds
  { all_passed := issues.isEmpty
    issues := issues
    rationale := if issues.isEmpty then "All guardrails passed"
                 else String.intercalate "; " issues }

/-- `PromptPromoter.should_promote`.  The promotion rationale produced on
success delegates to an LLM completion; that external call is the
`genRationale` parameter. -/
def should_promote (genRationale : ExperimentResult → GuardrailChecks → String)
    (er : ExperimentResult) (ds : Option Dataset) : Bool × String :=
  let checks := run_guardrails er ds
  if ¬checks.all_passed then (false, checks.rationale)
  else (true, genRationale er checks)

/-- Number of violated guardrails (regressions counted per dimension),
defined independently of the message lists. -/
def violatedCount (er : ExperimentResult) (ds : Option Dataset) : ℕ :=
  (if getD er.improvement_delta "aggregate" 0 < min_improvement_threshold then 1 else 0) +
  (if getD er.candidate_metrics "aggregate" 0 < min_absolute_score then 1 else 0) +
  (er.improvement_delta.countP
    (fun p => p.1 ≠ "aggregate" ∧ p.2 < -regression_threshold)) +
  (if getD er.candidate_metrics "format_adherence" 0 < format_pass_rate then 1 else 0) +
  (if criticalOf ds ≠ [] ∧ getD er.candidate_metrics "pass_rate" 0 < critical_case_pass_rate
    then 1 else 0)

/-! ### Evaluation dimensions (src/models.py, `EvaluationDimension`) -/

inductive EvaluationDimension where
  | correctness | format_adherence | verbosity | safety | consistency
deriving DecidableEq, Repr

def EvaluationDimension.value : EvaluationDimension → String
  | .correctness => "correctness"
  | .format_adherence => "format_adherence"
  | .verbosity => "verbosity"
  | .safety => "safety"
  | .consistency => "consistency"

/-! ### Prompt templates (src/utils/prompt_utils.py)

A template is tokenised into literal runs and `{name}` placeholders;
`str.format` scans left to right and raises `KeyError` carrying the first
unbound name it meets.  `ValueError(f"Missing required variable: {missing}")`
is the payload `render_prompt` re-raises; it carries exactly one name. -/

inductive Tok where
  | lit (s : String)
  | var (name : String)
deriving DecidableEq, Repr

abbrev Template := List Tok

inductive RenderError where
  | missingVariable (name : String)
deriving DecidableEq, Repr

def lookupStr (m : List (String × String)) (k : String) : Option String :=
  (m.find? (fun p => p.1 = k)).map Prod.snd

/-- `extract_variables`: the set of placeholder names (a Python `set`,
modelled as a deduplicated list in scan order). -/
def extract_variables (t : Template) : List String :=
  (t.filterMap (fun tok => match tok with
    | .var n => some n
    | .lit _ => none)).dedup

/-- `render_prompt`: substitute bindings left to right; fail on the first
placeholder without a binding, naming only that placeholder. -/
def render_prompt (t : Template) (vars : List (String × String)) :
    Except RenderError String :=
  match t with
  | [] => .ok ""
  | .lit s :: rest =>
    (render_prompt rest vars).map (fun tail => s ++ tail)
  | .var n :: rest =>
    match lookupStr vars n with
    | none => .error (.missingVariable n)
    | some v => (render_prompt rest vars).map (fun tail => v ++ tail)

/-- `validate_variables`: `(no name missing, the full missing set)`. -/
def validate_variables (t : Template) (provided : List (String × String)) :
    Bool × List String :=
  let missing := (extract_variables t).filter
    (fun n => ¬(provided.map Prod.fst).contains n)
  (missing.isEmpty, missing)

/-- First placeholder in scan order that has no binding. -/
def firstUnbound (t : Template) (vars : List (String × String)) :
    Option String :=
  t.findSome? (fun tok => match tok with
    | .var n => if lookupStr vars n = none then some n else none
    | .lit _ => none)

/-! ### Prompt versions (src/models.py, the fields evaluation reads)

The output JSON schema is kept as an uninterpreted value: the evaluator
only hands it to the external `jsonschema` validator. -/

structure PromptVersion where
  id : ℕ
  prompt_id : String
  version : String
  template : Template
  schema_definition : Option String
deriving DecidableEq, Repr

/-! ### Judge interface (src/evaluation/judge.py, `LLMJudge.evaluate`)

The judge delegates to an external structured LLM call; it is modelled as
an oracle from exactly the five arguments `Evaluator._evaluate_dimension`
passes to a judgment dict.  `score` is `Option` because the caller reads
it with `judgment.get("score", 0.0)`. -/

structure JudgeArgs where
  output : String
  expected : Option String
  rubric : Option String
  dimension : String
  context : Option (List (String × String))
deriving DecidableEq, Repr

structure Judgment where
  score : Option ℚ
  explanation : Option String
  strengths : List String
  weaknesses : List String
deriving DecidableEq, Repr

abbrev JudgeFn := JudgeArgs → Judgment

/-- The exact argument bundle `Evaluator._evaluate_dimension` forwards to
`judge.evaluate`: the raw output plus the case's own `expected_output`,
`rubric` and `context` fields — `case.get("context")` is passed through
unmodified. -/
def judgeInput (output : String) (tc : Case) (dimension : EvaluationDimension) :
    JudgeArgs :=
  { output := output
    expected := tc.expected_output
    rubric := tc.rubric
    dimension := dimension.value
    context := tc.context }

/-- Score + details of a single dimension evaluation; details are kept
abstract (only the score is claim-relevant). -/
structure DimResult where
  score : ℚ
deriving DecidableEq, Repr

/-- `Evaluator._evaluate_dimension`.  `validate` is the external
`ValidatorRegistry.validate("json_schema", output, schema)` verdict;
`judge` is `some` oracle when `use_llm_judge` configured a judge, `none`
otherwise (heuristic 0.5 fallback). -/
def evaluate_dimension (validate : String → String → Bool)
    (judge : Option JudgeFn) (output : String) (tc : Case)
    (dimension : EvaluationDimension) (prompt_version : PromptVersion) :
    DimResult :=
  match dimension, prompt_version.schema_definition with
  | .format_adherence, some schema =>
    if validate output schema then { score := 1 } else { score := 3/10 }
  | _, _ =>
    match judge with
    | some j => { score := (j (judgeInput output tc dimension)).score.getD 0 }
    | none => { score := 1/2 }

/-! ### BlindedEvaluator (src/evaluation/blinded_evaluator.py) -/

/-- Keys `_create_anonymous_context` strips before the judge sees the
context. -/
def versionIdentifyingKeys : List String :=
  ["prompt_version_id", "prompt_id", "version", "template", "prompt_template"]

/-- `BlindedEvaluator._create_anonymous_context`: `if not context: return
None` (an absent or empty dict), drop the version-identifying keys, and
return `None` again when nothing survives. -/
def create_anonymous_context (context : Option (List (String × String))) :
    Option (List (String × String)) :=
  match context with
  | none => none
  | some ctx =>
    if ctx.isEmpty then none
    else
      let anonymous := ctx.filter (fun p => ¬versionIdentifyingKeys.contains p.1)
      if anonymous.isEmpty then none else some anonymous

/-- `BlindedEvaluator.evaluate_with_deterministic_fallback`: deterministic
schema check for `format_adherence` when a schema is supplied, otherwise
the blinded judge path. -/
def evaluate_with_deterministic_fallback (validate : String → String → Bool)
    (judge : JudgeFn) (output : String) (expected : Option String)
    (schema : Option String) (dimension : String) : DimResult :=
  match schema with
  | some s =>
    if dimension = "format_adherence" then
      if validate output s then { score := 1 } else { score := 3/10 }
    else
      { score := (judge ⟨output, expected, none, dimension, none⟩).score.getD 0 }
  | none =>
    { score := (judge ⟨output, expected, none, dimension, none⟩).score.getD 0 }

/-! ### Evaluator.evaluate (src/evaluation/evaluator.py)

The loop over cases renders the template (a render failure propagates as
the exception it raises), obtains model output from the completion
capability (`llm`, an external oracle), scores every requested dimension,
and aggregates.  Persistence of per-dimension rows is a side effect with
no bearing on the returned response and is not modelled. -/

structure EvaluationScore where
  dimension : EvaluationDimension
  score : ℚ
deriving DecidableEq, Repr

structure CaseResult where
  input : List (String × String)
  output : String
  scores : List (EvaluationDimension × ℚ)
  passed : Bool
deriving DecidableEq, Repr

/-- `Evaluator._evaluate_case`: render, complete, score each dimension;
`passed` is true iff no dimension scored below the fixed 0.5 threshold. -/
def evaluate_case (validate : String → String → Bool) (judge : Option JudgeFn)
    (llm : String → String) (pv : PromptVersion) (tc : Case)
    (dims : List EvaluationDimension) : Except RenderError CaseResult :=
  match render_prompt pv.template tc.input with
  | .error e => .error e
  | .ok filled =>
    let output := llm filled
    let scores := dims.map
      (fun d => (d, (evaluate_dimension validate judge output tc d pv).score))
    .ok { input := tc.input, output := output, scores := scores,
          passed := scores.all (fun p => ¬(p.2 < 1/2)) }

/-- The per-dimension score bucket `dimension_scores[dim]`: per-case
scores appended in case order. -/
def scoresFor (results : List CaseResult) (d : EvaluationDimension) : List ℚ :=
  (results.map (fun r => r.scores)).flatten.filterMap
    (fun p => if p.1 = d then some p.2 else none)

structure EvaluationResponse where
  prompt_version_id : ℕ
  dataset_id : String
  scores : List EvaluationScore
  aggregate_score : ℚ
  total_cases : ℕ
  passed_cases : ℕ
  failed_cases : ℕ
deriving DecidableEq, Repr

/-- `Evaluator.evaluate` over an explicit dimension list (the source
defaults `dimensions=None` to all five canonical dimensions). -/
def evaluate (validate : String → String → Bool) (judge : Option JudgeFn)
    (llm : String → String) (pv : PromptVersion) (ds : Dataset)
    (dims : List EvaluationDimension) : Except RenderError EvaluationResponse :=
  match ds.cases.mapM (fun tc => evaluate_case validate judge llm pv tc dims) with
  | .error e => .error e
  | .ok results =>
    let evaluation_scores := dims.filterMap (fun d =>
      let scores := scoresFor results d
      if scores.isEmpty then none
      else some (EvaluationScore.mk d (scores.sum / scores.length)))
    let aggregate_score :=
      if evaluation_scores.isEmpty then 0
      else (evaluation_scores.map (fun es => es.score)).sum / evaluation_scores.length
    let passed_cases := (results.filter (fun r => r.passed)).length
    .ok { prompt_version_id := pv.id
          dataset_id := ds.dataset_id
          scores := evaluation_scores
          aggregate_score := aggregate_score
          total_cases := ds.cases.length
          passed_cases := passed_cases
          failed_cases := ds.cases.length - passed_cases }

/-! ### ExperimentRunner (src/improvement/experimenter.py) -/

/-- `ExperimentRunner._compute_metrics`: per-dimension aggregates, then
`aggregate`, then `pass_rate` (`passed/total` guarded by `total > 0`). -/
def compute_metrics (ev : EvaluationResponse) : List (String × ℚ) :=
  (ev.scores.map (fun es => (es.dimension.value, es.score))) ++
    [("aggregate", ev.aggregate_score),
     ("pass_rate",
       if 0 < ev.total_cases then (ev.passed_cases : ℚ) / (ev.total_cases : ℚ)
       else 0)]

/-- The delta dict comprehension of `run_experiment`: one entry per key of
`set(list(baseline.keys()) + list(candidate.keys()))` (a Python set is
unordered; it is modelled as the deduplicated concatenation), each valued
`candidate.get(dim, 0.0) - baseline.get(dim, 0.0)`. -/
def improvementDelta (baseline_metrics candidate_metrics : List (String × ℚ)) :
    List (String × ℚ) :=
  ((keysOf baseline_metrics ++ keysOf candidate_metrics).dedup).map
    (fun dim => (dim, getD candidate_metrics dim 0 - getD baseline_metrics dim 0))

/-- All five canonical dimensions (`list(EvaluationDimension)`), the
default `evaluate` receives from `run_experiment`. -/
def allDimensions : List EvaluationDimension :=
  [.correctness, .format_adherence, .verbosity, .safety, .consistency]

/-- `ExperimentRunner.run_experiment`: evaluate baseline then candidate on
the same dataset, compute both metric dicts, and pair them with the delta
dict.  `new_experiment_id` stands for the id the experiment storage
assigns to the persisted record. -/
def run_experiment (validate : String → String → Bool) (judge : Option JudgeFn)
    (llm : String → String) (baseline candidate : PromptVersion) (ds : Dataset)
    (new_experiment_id : ℕ) : Except RenderError ExperimentResult :=
  match evaluate validate judge llm baseline ds allDimensions with
  | .error e => .error e
  | .ok baseline_result =>
    match evaluate validate judge llm candidate ds allDimensions with
    | .error e => .error e
    | .ok candidate_result =>
      let baseline_metrics := compute_metrics baseline_result
      let candidate_metrics := compute_metrics candidate_result
      .ok { experiment_id := new_experiment_id
            baseline_metrics := baseline_metrics
            candidate_metrics := candidate_metrics
            improvement_delta := improvementDelta baseline_metrics candidate_metrics }

/-! ### PromptStorage (src/storage/prompt_storage.py) -/

inductive PromptStatus where
  | draft | active | experimental | deprecated
deriving DecidableEq, Repr

structure StoredVersion where
  id : ℕ
  prompt_id : String
  status : PromptStatus
  promoted_at : Option ℕ
deriving DecidableEq, Repr

abbrev Store := List StoredVersion

/-- `PromptStorage.get_version`: first row with the id (ids are a primary
key; theorems carry the no-duplicate-id hypothesis). -/
def get_version (s : Store) (version_id : ℕ) : Option StoredVersion :=
  s.find? (fun v => v.id = version_id)

/-- `PromptStorage.promote_version`: raise (`none`) when the id is absent;
otherwise set every ACTIVE row of the same `prompt_id` to DEPRECATED, then
set the promoted row to ACTIVE with a fresh `promoted_at` — both updates
inside the one call. -/
def promote_version (s : Store) (version_id : ℕ) (now : ℕ) : Option Store :=
  match get_version s version_id with
  | none => none
  | some v =>
    let deprecated := s.map (fun w =>
      if w.prompt_id = v.prompt_id ∧ w.status = .active then
        { w with status := .deprecated } else w)
    some (deprecated.map (fun w =>
      if w.id = version_id then
        { w with status := .active, promoted_at := some now } else w))

/-- A sequence of `promote_version` calls, each `(version_id, now)`.  A
call that raises leaves the store unchanged (the source raises before any
mutation). -/
def runPromotes (s : Store) (calls : List (ℕ × ℕ)) : Store :=
  calls.foldl (fun st c =>
    match promote_version st c.1 c.2 with
    | some st2 => st2
    | none => st) s

/-- Number of ACTIVE versions of one `prompt_id`. -/
def activeCount (s : Store) (pid : String) : ℕ :=
  s.countP (fun v => v.prompt_id = pid ∧ v.status = .active)

/-- The spec's invariant: at most one active version per `prompt_id`. -/
def InvariantAll (s : Store) : Prop :=
  ∀ pid, activeCount s pid ≤ 1

def NodupIds (s : Store) : Prop := (s.map (fun v => v.id)).Nodup

/-! ### Promotion with audit (src/improvement/promoter.py `promote`,
src/storage/experiment_storage.py `mark_promoted`,
src/utils/audit.py `log_prompt_change`) -/

structure StoredExperiment where
  id : ℕ
  baseline_version_id : ℕ
  candidate_version_id : ℕ
  promoted : Bool
deriving DecidableEq, Repr

structure AuditEvent where
  event_type : String
  prompt_version_id : Option ℕ
  from_version_id : ℕ
  to_version_id : ℕ
  change_summary : String
deriving DecidableEq, Repr

structure SysState where
  versions : Store
  experiments : List StoredExperiment
  audit : List AuditEvent
deriving DecidableEq, Repr

def get_experiment (es : List StoredExperiment) (eid : ℕ) :
    Option StoredExperiment :=
  es.find? (fun e => e.id = eid)

/-- `ExperimentStorage.mark_promoted`: set the flag of the experiment row
(no-op when absent). -/
def mark_promoted (es : List StoredExperiment) (eid : ℕ) :
    List StoredExperiment :=
  es.map (fun e => if e.id = eid then { e with promoted := true } else e)

/-- `AuditLogger.log_prompt_change`: append one PROMPT_PROMOTED event to
the append-only log. -/
def log_prompt_change (audit : List AuditEvent) (from_version_id to_version_id : ℕ)
    (change_summary : String) : List AuditEvent :=
  audit ++ [{ event_type := "prompt_promoted"
              prompt_version_id := some to_version_id
              from_version_id := from_version_id
              to_version_id := to_version_id
              change_summary := change_summary }]

/-- Number of PROMPT_PROMOTED audit events recorded for a transition. -/
def promotedEventCount (audit : List AuditEvent) (to_version_id : ℕ) : ℕ :=
  audit.countP (fun ev =>
    ev.event_type = "prompt_promoted" ∧ ev.to_version_id = to_version_id)

/-- `PromptPromoter.promote`: look up the experiment (raise when absent),
append the audit event, mark the experiment promoted, promote the version.
The source performs these steps unconditionally on every call — it never
consults the experiment's existing `promoted` flag.  (When
`promote_version` raises, the source has already logged and marked; that
partially-mutated path is collapsed to `none` here and not used by any
claim.) -/
def promote (st : SysState) (experiment_id candidate_version_id : ℕ)
    (rationale : Option String) (now : ℕ) : Option SysState :=
  match get_experiment st.experiments experiment_id with
  | none => none
  | some e =>
    let change_summary := rationale.getD
      ("Promoted based on experiment " ++ toString experiment_id)
    let audit1 := log_prompt_change st.audit e.baseline_version_id
      candidate_version_id change_summary
    let exps1 := mark_promoted st.experiments experiment_id
    match promote_version st.versions candidate_version_id now with
    | none => none
    | some vs => some { versions := vs, experiments := exps1, audit := audit1 }

/-! ### LLMCache (src/utils/cache.py)

`_generate_key` JSON-serialises `{prompt, system_prompt or "", **kwargs}`
with `temperature`/`max_tokens` removed and `sort_keys=True`, then SHA-256
hashes it.  Serialisation+hash is modelled as the canonical tuple itself
(keys sorted), i.e. the hash is treated as injective on key data. -/

abbrev KwArgs := List (String × String)

def filterSampling (kwargs : KwArgs) : KwArgs :=
  kwargs.filter (fun p => ¬(p.1 = "temperature" ∨ p.1 = "max_tokens"))

def insortKV (p : String × String) : KwArgs → KwArgs
  | [] => [p]
  | q :: rest => if p.1 ≤ q.1 then p :: q :: rest else q :: insortKV p rest

/-- `json.dumps(..., sort_keys=True)` canonical ordering of the kwargs. -/
def sortKV (l : KwArgs) : KwArgs := l.foldr insortKV []

abbrev CacheKey := String × String × KwArgs

/-- `LLMCache._generate_key`. -/
def generate_key (prompt : String) (system_prompt : Option String)
    (kwargs : KwArgs) : CacheKey :=
  (prompt, system_prompt.getD "", sortKV (filterSampling kwargs))

structure CacheEntry where
  response : String
  timestamp : ℚ
deriving DecidableEq, Repr

structure LLMCache where
  entries : List (CacheKey × CacheEntry)
  ttl : ℚ
  enabled : Bool
deriving DecidableEq, Repr

/-- `LLMCache.set`: a no-op when caching is disabled, else dict assignment
at the generated key (modelled as insert-at-head with the stale binding
erased). -/
def cache_set (c : LLMCache) (prompt : String) (response : String)
    (system_prompt : Option String) (kwargs : KwArgs) (now : ℚ) : LLMCache :=
  if ¬c.enabled then c
  else
    let key := generate_key prompt system_prompt kwargs
    { c with entries :=
        (key, { response := response, timestamp := now }) ::
          c.entries.filter (fun p => p.1 ≠ key) }

/-- The response `LLMCache.get` returns: `None` when disabled, absent, or
older than the TTL.  (On the expired branch the source also deletes the
entry; that state change does not affect the returned value and is not
threaded here.) -/
def cache_get (c : LLMCache) (prompt : String) (system_prompt : Option String)
    (kwargs : KwArgs) (now : ℚ) : Option String :=
  if ¬c.enabled then none
  else
    match c.entries.find? (fun p => p.1 = generate_key prompt system_prompt kwargs) with
    | some p => if now - p.2.timestamp < c.ttl then some p.2.response else none
    | none => none

/-! ### Concrete instances used by witnesses and counterexamples -/

/-- Concrete experiment violating guardrails 1 and 3 (safety). -/
def erC1 : ExperimentResult :=
  { experiment_id := 1
    baseline_metrics := [("aggregate", 6/10), ("safety", 9/10)]
    candidate_metrics := [("aggregate", 8/10), ("safety", 8/10),
      ("format_adherence", 1), ("pass_rate", 1)]
    improvement_delta := [("aggregate", 0), ("safety", -1/10)] }

def pvBase : PromptVersion :=
  { id := 1, prompt_id := "p", version := "1.0.0", template := [],
    schema_definition := none }

def pvCand : PromptVersion :=
  { id := 2, prompt_id := "p", version := "1.0.1", template := [],
    schema_definition := none }

def dsEmpty : Dataset := { dataset_id := "d", cases := [] }

def erC4 : ExperimentResult :=
  { experiment_id := 7
    baseline_metrics := [("aggregate", 0), ("pass_rate", 0)]
    candidate_metrics := [("aggregate", 0), ("pass_rate", 0)]
    improvement_delta := [("aggregate", 0 - 0), ("pass_rate", 0 - 0)] }

/-- Concrete version declaring an output schema. -/
def pvSchema : PromptVersion :=
  { id := 3, prompt_id := "p", version := "1.0.2",
    template := [Tok.lit "Summarize: ", Tok.var "text"],
    schema_definition := some "summary-schema" }

def caseC5 : Case :=
  { input := [("text", "A")], expected_output := none, rubric := none,
    context := none, meta_critical := false }

/-- Template `"{a} and {b}"` with two placeholders. -/
def tplC7 : Template := [Tok.var "a", Tok.lit " and ", Tok.var "b"]

/-- A case context dict carrying the version-identifying key `template`. -/
def ctxLeak : List (String × String) := [("template", "Summarize: \x7btext\x7d")]

def caseC8 : Case :=
  { input := [], expected_output := some "e", rubric := none,
    context := some ctxLeak, meta_critical := false }

/-- A judge oracle that observes whether the leaked context reached it. -/
def jSpy : JudgeFn := fun args =>
  { score := if args.context = some ctxLeak then some 1 else some 0
    explanation := none, strengths := [], weaknesses := [] }

/-- Concrete store: one active version per prompt, unique ids. -/
def storeC2 : Store :=
  [{ id := 1, prompt_id := "p", status := PromptStatus.active, promoted_at := none },
   { id := 2, prompt_id := "p", status := PromptStatus.draft, promoted_at := none },
   { id := 3, prompt_id := "q", status := PromptStatus.active, promoted_at := none }]

/-- Concrete experiment and system state for the double-promotion run. -/
def expC3 : StoredExperiment :=
  { id := 1, baseline_version_id := 1, candidate_version_id := 2, promoted := false }

def stC3 : SysState :=
  { versions :=
      [{ id := 1, prompt_id := "p", status := PromptStatus.active, promoted_at := none },
       { id := 2, prompt_id := "p", status := PromptStatus.draft, promoted_at := none }]
    experiments := [expC3]
    audit := [] }

end PromptOpt

namespace PromptOpt

/-! ## Theorems -/

/-- Helper: length of the guardrail issue list equals the independent
count of violated guardrails. -/
theorem guardrailIssues_length (er : ExperimentResult) (ds : Option Dataset) :
    (guardrailIssues er ds).length = violatedCount er ds := by
  simp only [guardrailIssues, violatedCount, issuesImprovement, issuesAbsolute,
    issuesRegressions, issuesFormat, issuesCritical, List.length_append,
    List.length_map, ← List.countP_eq_length_filter]
  by_cases h1 : getD er.improvement_delta "aggregate" 0 < min_improvement_threshold <;>
  by_cases h2 : getD er.candidate_metrics "aggregate" 0 < min_absolute_score <;>
  by_cases h4 : getD er.candidate_metrics "format_adherence" 0 < format_pass_rate <;>
  by_cases h5 : criticalOf ds ≠ [] <;>
  by_cases h6 : getD er.candidate_metrics "pass_rate" 0 < critical_case_pass_rate <;>
  simp [h1, h2, h4, h5, h6]

end PromptOpt

namespace PromptOpt

/-- C1: `should_promote` runs every guardrail check without
short-circuiting: whenever the aggregate delta is below
`min_improvement_threshold` AND some `safety` entry of the delta dict is a
regression beyond `regression_threshold`, it returns `false` with the
rationale being all violation messages joined by `"; "`, the improvement
message and the safety-regression message both among them, and exactly one
message per violated guardrail. -/
theorem should_promote_reports_all_violations
    (genRationale : ExperimentResult → GuardrailChecks → String)
    (er : ExperimentResult) (ds : Option Dataset) (dsafety : ℚ)
    (h1 : getD er.improvement_delta "aggregate" 0 < min_improvement_threshold)
    (h2 : ("safety", dsafety) ∈ er.improvement_delta)
    (h3 : dsafety < -regression_threshold) :
    should_promote genRationale er ds =
      (false, String.intercalate "; " (guardrailIssues er ds)) ∧
    msgImprovement (getD er.improvement_delta "aggregate" 0) ∈ guardrailIssues er ds ∧
    msgRegression "safety" dsafety ∈ guardrailIssues er ds ∧
    (guardrailIssues er ds).length = violatedCount er ds := by
  have himp : issuesImprovement er =
      [msgImprovement (getD er.improvement_delta "aggregate" 0)] := by
    simp [issuesImprovement, h1]
  have hne : guardrailIssues er ds ≠ [] := by
    simp [guardrailIssues, himp]
  have hmem1 : msgImprovement (getD er.improvement_delta "aggregate" 0) ∈
      guardrailIssues er ds := by
    simp [guardrailIssues, himp]
  have hmem2 : msgRegression "safety" dsafety ∈ guardrailIssues er ds := by
    have : ("safety", dsafety) ∈ er.improvement_delta.filter
        (fun p => p.1 ≠ "aggregate" ∧ p.2 < -regression_threshold) := by
      rw [List.mem_filter]
      refine ⟨h2, ?_⟩
      simp [h3]
    have : msgRegression "safety" dsafety ∈ issuesRegressions er := by
      simpa [issuesRegressions] using
        List.mem_map_of_mem (fun p => msgRegression p.1 p.2) this
    simp [guardrailIssues, this]
  refine ⟨?_, hmem1, hmem2, guardrailIssues_length er ds⟩
  simp [should_promote, run_guardrails, List.isEmpty_iff, hne]

end PromptOpt

namespace PromptOpt

/-- C1 witness at `erC1`. -/
theorem should_promote_reports_all_violations_witness :
    (getD erC1.improvement_delta "aggregate" 0 < min_improvement_threshold) ∧
    (("safety", (-1/10 : ℚ)) ∈ erC1.improvement_delta) ∧
    ((-1/10 : ℚ) < -regression_threshold) ∧
    (should_promote (fun _ _ => "ok") erC1 none =
      (false, String.intercalate "; " (guardrailIssues erC1 none)) ∧
    msgImprovement (getD erC1.improvement_delta "aggregate" 0) ∈ guardrailIssues erC1 none ∧
    msgRegression "safety" (-1/10) ∈ guardrailIssues erC1 none ∧
    (guardrailIssues erC1 none).length = violatedCount erC1 none) :=
  ⟨by norm_num [erC1, getD, lookupKV, min_improvement_threshold],
    by norm_num [erC1],
    by norm_num [regression_threshold],
    should_promote_reports_all_violations (fun _ _ => "ok") erC1 none (-1/10)
      (by norm_num [erC1, getD, lookupKV, min_improvement_threshold])
      (by norm_num [erC1])
      (by norm_num [regression_threshold])⟩

/-- C9: the critical-case guardrail runs iff a dataset was supplied that
exposes at least one case whose metadata flags it critical; when no
critical case exists the check contributes no violation message no matter
the candidate pass rate, and when one exists it contributes exactly the
pass-rate message iff the pass rate is below `critical_case_pass_rate`;
the full issue list is the ordered concatenation of the five checks'
messages. -/
theorem critical_guardrail_checked_iff (er : ExperimentResult) (ds : Option Dataset) :
    issuesCritical er ds =
      (if criticalOf ds = [] then []
       else if getD er.candidate_metrics "pass_rate" 0 < critical_case_pass_rate
       then [msgCritical (getD er.candidate_metrics "pass_rate" 0)] else []) ∧
    (criticalOf ds ≠ [] ↔
      ∃ d, ds = some d ∧ ∃ c ∈ d.cases, c.meta_critical = true) ∧
    guardrailIssues er ds =
      issuesImprovement er ++ issuesAbsolute er ++ issuesRegressions er ++
        issuesFormat er ++ issuesCritical er ds := by
  refine ⟨?_, ?_, rfl⟩
  · by_cases h : criticalOf ds = [] <;> simp [issuesCritical, h]
  · match ds with
    | none => simp [criticalOf]
    | some d =>
      by_cases hlen : d.cases.length = 0
      · have : d.cases = [] := List.length_eq_zero.mp hlen
        simp [criticalOf, hlen, this]
      · simp only [criticalOf, if_neg hlen, Dataset.get_critical_cases]
        constructor
        · intro hne
          rcases List.exists_mem_of_ne_nil _ hne with ⟨c, hc⟩
          rcases List.mem_filter.mp hc with ⟨hmem, hcrit⟩
          exact ⟨d, rfl, c, hmem, by simpa using hcrit⟩
        · rintro ⟨d2, hd2, c, hmem, hcrit⟩
          cases hd2
          intro hnil
          have : c ∈ d.cases.filter (fun c => c.meta_critical) :=
            List.mem_filter.mpr ⟨hmem, by simp [hcrit]⟩
          simp [hnil] at this

end PromptOpt

namespace PromptOpt

/-- Helper: looking up a key of `l` in the graph of `f` over `l`. -/
theorem lookupKV_map_graph (f : String → ℚ) (l : List String) (k : String)
    (hk : k ∈ l) : lookupKV (l.map (fun d => (d, f d))) k = some (f k) := by
  induction l with
  | nil => simp at hk
  | cons a t ih =>
    rcases List.mem_cons.mp hk with h | h
    · subst h
      simp [lookupKV]
    · by_cases hak : a = k
      · subst hak
        simp [lookupKV]
      · have step : lookupKV ((a, f a) :: t.map (fun d => (d, f d))) k =
            lookupKV (t.map (fun d => (d, f d))) k := by
          simp [lookupKV, List.find?_cons, hak]
        simpa [step] using ih h

/-- Helper: the delta dict's keys are exactly the deduplicated union. -/
theorem keysOf_improvementDelta (bm cm : List (String × ℚ)) :
    keysOf (improvementDelta bm cm) = (keysOf bm ++ keysOf cm).dedup := by
  have : (Prod.fst ∘ fun dim => (dim, getD cm dim 0 - getD bm dim 0)) =
      fun dim : String => dim := rfl
  simp [keysOf, improvementDelta, List.map_map, this]

/-- C4: `run_experiment` computes `improvement_delta` over the union of
metric keys of either side — every key of either metrics dict appears in
the delta, nothing else does, and each delta value is
`candidate.get(dim, 0.0) - baseline.get(dim, 0.0)` (an absent side
contributing `0.0`). -/
theorem run_experiment_delta_over_union (validate : String → String → Bool)
    (judge : Option JudgeFn) (llm : String → String)
    (baseline candidate : PromptVersion) (ds : Dataset) (eid : ℕ)
    (er : ExperimentResult)
    (h : run_experiment validate judge llm baseline candidate ds eid = .ok er) :
    (∀ k, k ∈ keysOf er.improvement_delta ↔
      (k ∈ keysOf er.baseline_metrics ∨ k ∈ keysOf er.candidate_metrics)) ∧
    (∀ k, (k ∈ keysOf er.baseline_metrics ∨ k ∈ keysOf er.candidate_metrics) →
      lookupKV er.improvement_delta k =
        some (getD er.candidate_metrics k 0 - getD er.baseline_metrics k 0)) := by
  have hdelta : er.improvement_delta =
      improvementDelta er.baseline_metrics er.candidate_metrics := by
    unfold run_experiment at h
    cases hb : evaluate validate judge llm baseline ds allDimensions with
    | error e => rw [hb] at h; cases h
    | ok br =>
      cases hc : evaluate validate judge llm candidate ds allDimensions with
      | error e => rw [hb, hc] at h; cases h
      | ok cr =>
        rw [hb, hc] at h
        cases h
        rfl
  constructor
  · intro k
    rw [hdelta, keysOf_improvementDelta]
    simp [List.mem_dedup, keysOf]
  · intro k hk
    rw [hdelta]
    unfold improvementDelta
    apply lookupKV_map_graph
    rw [List.mem_dedup, List.mem_append]
    simpa [keysOf] using hk

end PromptOpt

namespace PromptOpt

/-- C4 witness: a concrete successful experiment run. -/
theorem run_experiment_delta_over_union_witness :
    run_experiment (fun _ _ => true) none (fun _ => "out") pvBase pvCand dsEmpty 7 =
      .ok erC4 ∧
    ((∀ k, k ∈ keysOf erC4.improvement_delta ↔
      (k ∈ keysOf erC4.baseline_metrics ∨ k ∈ keysOf erC4.candidate_metrics)) ∧
    (∀ k, (k ∈ keysOf erC4.baseline_metrics ∨ k ∈ keysOf erC4.candidate_metrics) →
      lookupKV erC4.improvement_delta k =
        some (getD erC4.candidate_metrics k 0 - getD erC4.baseline_metrics k 0))) :=
  ⟨rfl, run_experiment_delta_over_union (fun _ _ => true) none (fun _ => "out")
    pvBase pvCand dsEmpty 7 erC4 rfl⟩

/-- C6: on a dataset with zero cases, `evaluate` succeeds (no
division-by-zero raise) with `aggregate_score = 0.0`, and the experiment
metrics computed from its response carry `pass_rate = 0.0`. -/
theorem zero_cases_zero_aggregate_and_pass_rate
    (validate : String → String → Bool) (judge : Option JudgeFn)
    (llm : String → String) (pv : PromptVersion) (ds : Dataset)
    (dims : List EvaluationDimension) (h : ds.cases = []) :
    ∃ resp, evaluate validate judge llm pv ds dims = .ok resp ∧
      resp.aggregate_score = 0 ∧
      getD (compute_metrics resp) "pass_rate" 0 = 0 ∧
      resp.total_cases = 0 := by
  obtain ⟨did, cs⟩ := ds
  simp only at h
  subst h
  have hfm : ∀ l : List EvaluationDimension,
      l.filterMap (fun d =>
        if (scoresFor [] d).isEmpty then none
        else some (EvaluationScore.mk d ((scoresFor [] d).sum / (scoresFor [] d).length))) = [] := by
    intro l
    induction l with
    | nil => rfl
    | cons a t ih => simp [List.filterMap_cons, scoresFor, ih]
  refine ⟨_, rfl, ?_, ?_, rfl⟩
  · show (if (dims.filterMap _).isEmpty then (0 : ℚ) else _) = 0
    simp only [List.reverse_nil]
    rw [hfm]
    rfl
  · dsimp only [compute_metrics]
    simp only [List.reverse_nil]
    rw [hfm]
    simp [getD, lookupKV]

end PromptOpt

namespace PromptOpt

/-- C6 witness at the concrete empty dataset. -/
theorem zero_cases_zero_aggregate_and_pass_rate_witness :
    dsEmpty.cases = [] ∧
    ∃ resp, evaluate (fun _ _ => true) none (fun _ => "o") pvBase dsEmpty
        allDimensions = .ok resp ∧
      resp.aggregate_score = 0 ∧
      getD (compute_metrics resp) "pass_rate" 0 = 0 ∧
      resp.total_cases = 0 :=
  ⟨rfl, zero_cases_zero_aggregate_and_pass_rate (fun _ _ => true) none
    (fun _ => "o") pvBase dsEmpty allDimensions rfl⟩

/-- C5: when the dimension is `format_adherence` and the version declares
an output schema, the score is exactly 1.0 on successful validation and
exactly 0.3 on failure — never 0.0 — and the result is the same for every
judge configuration (no judge call on this path); likewise for the
blinded evaluator's deterministic fallback. -/
theorem format_adherence_schema_score (validate : String → String → Bool)
    (output : String) (tc : Case) (pv : PromptVersion) (schema : String)
    (h : pv.schema_definition = some schema) :
    (∀ judge : Option JudgeFn,
      evaluate_dimension validate judge output tc .format_adherence pv =
        { score := if validate output schema then 1 else 3/10 }) ∧
    ((if validate output schema then (1 : ℚ) else 3/10) ≠ 0) ∧
    (∀ (j : JudgeFn) (expected : Option String),
      evaluate_with_deterministic_fallback validate j output expected
          (some schema) "format_adherence" =
        { score := if validate output schema then 1 else 3/10 }) := by
  refine ⟨?_, ?_, ?_⟩
  · intro judge
    simp only [evaluate_dimension, h]
    by_cases hv : validate output schema <;> simp [hv]
  · by_cases hv : validate output schema <;> simp [hv]
  · intro j expected
    simp only [evaluate_with_deterministic_fallback]
    by_cases hv : validate output schema <;> simp [hv]

/-- C5 witness: a failing validation scores exactly 0.3, for any judge. -/
theorem format_adherence_schema_score_witness :
    pvSchema.schema_definition = some "summary-schema" ∧
    ((∀ judge : Option JudgeFn,
      evaluate_dimension (fun _ _ => false) judge "not json" caseC5
          .format_adherence pvSchema =
        { score := if (fun _ _ => false) "not json" "summary-schema" then 1 else 3/10 }) ∧
    ((if (fun _ _ => false) "not json" "summary-schema" then (1 : ℚ) else 3/10) ≠ 0) ∧
    (∀ (j : JudgeFn) (expected : Option String),
      evaluate_with_deterministic_fallback (fun _ _ => false) j "not json" expected
          (some "summary-schema") "format_adherence" =
        { score := if (fun _ _ => false) "not json" "summary-schema" then 1 else 3/10 })) :=
  ⟨rfl, format_adherence_schema_score (fun _ _ => false) "not json" caseC5
    pvSchema "summary-schema" rfl⟩

end PromptOpt

namespace PromptOpt

/-- Helper: when every placeholder is bound in scan order, rendering
succeeds. -/
theorem render_ok_of_firstUnbound_none (t : Template)
    (vars : List (String × String)) (h : firstUnbound t vars = none) :
    ∃ s, render_prompt t vars = .ok s := by
  induction t with
  | nil => exact ⟨"", rfl⟩
  | cons tok rest ih =>
    cases tok with
    | lit s =>
      have h2 : firstUnbound rest vars = none := by
        simpa [firstUnbound, List.findSome?_cons] using h
      obtain ⟨s2, hs2⟩ := ih h2
      exact ⟨s ++ s2, by simp [render_prompt, hs2, Except.map]⟩
    | var n =>
      cases hl : lookupStr vars n with
      | none => simp [firstUnbound, List.findSome?_cons, hl] at h
      | some v =>
        have h2 : firstUnbound rest vars = none := by
          simpa [firstUnbound, List.findSome?_cons, hl] using h
        obtain ⟨s2, hs2⟩ := ih h2
        exact ⟨v ++ s2, by simp [render_prompt, hl, hs2, Except.map]⟩

/-- Helper: rendering fails carrying exactly the first unbound name. -/
theorem render_error_of_firstUnbound_some (t : Template)
    (vars : List (String × String)) (n : String)
    (h : firstUnbound t vars = some n) :
    render_prompt t vars = .error (.missingVariable n) := by
  induction t with
  | nil => simp [firstUnbound] at h
  | cons tok rest ih =>
    cases tok with
    | lit s =>
      have h2 : firstUnbound rest vars = some n := by
        simpa [firstUnbound, List.findSome?_cons] using h
      simp [render_prompt, ih h2, Except.map]
    | var m =>
      cases hl : lookupStr vars m with
      | none =>
        have : m = n := by
          simpa [firstUnbound, List.findSome?_cons, hl] using h
        subst this
        simp [render_prompt, hl]
      | some v =>
        have h2 : firstUnbound rest vars = some n := by
          simpa [firstUnbound, List.findSome?_cons, hl] using h
        simp [render_prompt, hl, ih h2, Except.map]

/-- Helper: the first unbound name is unbound and occurs as a placeholder. -/
theorem firstUnbound_spec (t : Template) (vars : List (String × String))
    (n : String) (h : firstUnbound t vars = some n) :
    Tok.var n ∈ t ∧ lookupStr vars n = none := by
  induction t with
  | nil => simp [firstUnbound] at h
  | cons tok rest ih =>
    cases tok with
    | lit s =>
      have h2 : firstUnbound rest vars = some n := by
        simpa [firstUnbound, List.findSome?_cons] using h
      exact ⟨List.mem_cons_of_mem _ (ih h2).1, (ih h2).2⟩
    | var m =>
      cases hl : lookupStr vars m with
      | none =>
        have : m = n := by
          simpa [firstUnbound, List.findSome?_cons, hl] using h
        subst this
        exact ⟨List.mem_cons_self _ _, hl⟩
      | some v =>
        have h2 : firstUnbound rest vars = some n := by
          simpa [firstUnbound, List.findSome?_cons, hl] using h
        exact ⟨List.mem_cons_of_mem _ (ih h2).1, (ih h2).2⟩

/-- Helper: a bound name is never unbound anywhere in scan order. -/
theorem firstUnbound_none_iff (t : Template) (vars : List (String × String)) :
    firstUnbound t vars = none ↔
      ∀ n, Tok.var n ∈ t → lookupStr vars n ≠ none := by
  induction t with
  | nil => simp [firstUnbound]
  | cons tok rest ih =>
    cases tok with
    | lit s =>
      have hstep : firstUnbound (Tok.lit s :: rest) vars = firstUnbound rest vars := by
        simp [firstUnbound, List.findSome?_cons]
      rw [hstep, ih]
      constructor
      · intro h n hn
        rcases List.mem_cons.mp hn with h2 | h2
        · cases h2
        · exact h n h2
      · intro h n hn
        exact h n (List.mem_cons_of_mem _ hn)
    | var m =>
      cases hl : lookupStr vars m with
      | none =>
        constructor
        · intro h
          simp [firstUnbound, List.findSome?_cons, hl] at h
        · intro h
          exact absurd hl (h m (List.mem_cons_self _ _))
      | some v =>
        have hstep : firstUnbound (Tok.var m :: rest) vars = firstUnbound rest vars := by
          simp [firstUnbound, List.findSome?_cons, hl]
        rw [hstep, ih]
        constructor
        · intro h n hn
          rcases List.mem_cons.mp hn with h2 | h2
          · cases h2
            simp [hl]
          · exact h n h2
        · intro h n hn
          exact h n (List.mem_cons_of_mem _ hn)

/-- Helper: lookup fails exactly when the name is not among the provided
keys. -/
theorem lookupStr_eq_none_iff (vars : List (String × String)) (n : String) :
    lookupStr vars n = none ↔ n ∉ vars.map Prod.fst := by
  induction vars with
  | nil => simp [lookupStr]
  | cons p rest ih =>
    by_cases hp : p.1 = n
    · simp [lookupStr, List.find?_cons, hp]
    · have hp2 : ¬ n = p.1 := fun hc => hp hc.symm
      have hstep : lookupStr (p :: rest) n = lookupStr rest n := by
        simp [lookupStr, List.find?_cons, hp]
      simp [hstep, ih, hp2]

/-- Helper: `validate_variables` finds no missing name iff every
placeholder is bound. -/
theorem validate_variables_fst_iff (t : Template) (vars : List (String × String)) :
    (validate_variables t vars).1 = true ↔
      ∀ n, Tok.var n ∈ t → lookupStr vars n ≠ none := by
  simp only [validate_variables, List.isEmpty_iff, List.filter_eq_nil_iff]
  constructor
  · intro h n hn
    have hmem : n ∈ extract_variables t := by
      simp only [extract_variables, List.mem_dedup, List.mem_filterMap]
      exact ⟨Tok.var n, hn, rfl⟩
    have h2 := h n hmem
    rw [Ne, lookupStr_eq_none_iff]
    simpa using h2
  · intro h n hn
    simp only [extract_variables, List.mem_dedup, List.mem_filterMap] at hn
    rcases hn with ⟨tok, htok, hget⟩
    cases tok with
    | lit s => cases hget
    | var m =>
      have hm : m = n := by simpa using hget
      subst hm
      have h2 := h m htok
      rw [Ne, lookupStr_eq_none_iff] at h2
      simpa using h2

end PromptOpt

namespace PromptOpt

/-- C7 counterexample: with both `a` and `b` unbound, `render_prompt`
fails carrying only the single first missing name `a`, while the full
missing set (computed by the separate `validate_variables`, which
`render_prompt` never calls) is `{a, b}` — refuting the claim that the
render error reports the full set of unbound names together. -/
theorem render_prompt_single_name_counterexample :
    render_prompt tplC7 [] = .error (.missingVariable "a") ∧
    validate_variables tplC7 [] = (false, ["a", "b"]) :=
  ⟨rfl, rfl⟩

/-- C7 (amended): rendering a fully-bound template succeeds; rendering
with any unbound placeholder fails with an error naming exactly the first
unbound placeholder in scan order (one name, drawn from the missing set
`validate_variables` computes), not the full set. -/
theorem render_prompt_missing_behavior (t : Template)
    (vars : List (String × String)) :
    ((validate_variables t vars).1 = true → ∃ s, render_prompt t vars = .ok s) ∧
    ((validate_variables t vars).1 = false →
      ∃ n, firstUnbound t vars = some n ∧
        render_prompt t vars = .error (.missingVariable n) ∧
        n ∈ (validate_variables t vars).2) := by
  constructor
  · intro hv
    apply render_ok_of_firstUnbound_none
    cases hfu : firstUnbound t vars with
    | none => rfl
    | some n =>
      exfalso
      have hspec := firstUnbound_spec t vars n hfu
      exact (validate_variables_fst_iff t vars).mp hv n hspec.1 hspec.2
  · intro hv
    cases hfu : firstUnbound t vars with
    | none =>
      exfalso
      have : (validate_variables t vars).1 = true :=
        (validate_variables_fst_iff t vars).mpr
          ((firstUnbound_none_iff t vars).mp hfu)
      simp [this] at hv
    | some n =>
      refine ⟨n, rfl, render_error_of_firstUnbound_some t vars n hfu, ?_⟩
      have hspec := firstUnbound_spec t vars n hfu
      show n ∈ (extract_variables t).filter _
      refine List.mem_filter.mpr ⟨?_, ?_⟩
      · simp only [extract_variables, List.mem_dedup, List.mem_filterMap]
        exact ⟨Tok.var n, hspec.1, rfl⟩
      · have : n ∉ vars.map Prod.fst := (lookupStr_eq_none_iff vars n).mp hspec.2
        simpa using this

/-- C7 witness at the concrete template with two unbound placeholders. -/
theorem render_prompt_missing_behavior_witness :
    (validate_variables tplC7 []).1 = false ∧
    (∃ n, firstUnbound tplC7 [] = some n ∧
      render_prompt tplC7 [] = .error (.missingVariable n) ∧
      n ∈ (validate_variables tplC7 []).2) :=
  ⟨rfl, (render_prompt_missing_behavior tplC7 []).2 rfl⟩

end PromptOpt

namespace PromptOpt

/-- C8 counterexample: `Evaluator._evaluate_dimension` forwards
`case.get("context")` to the judge unmodified — the forwarded context
still holds the version-identifying key `template`, exactly one of the
keys `BlindedEvaluator._create_anonymous_context` strips (that filter
would have reduced this context to `None`), and a judge oracle can
observe the unfiltered key.  This refutes the claim that the evaluator
filters the case context before passing it to `judge.evaluate`. -/
theorem evaluator_forwards_version_identifying_context :
    (judgeInput "out" caseC8 .correctness).context = some ctxLeak ∧
    "template" ∈ versionIdentifyingKeys ∧
    create_anonymous_context (some ctxLeak) = none ∧
    evaluate_dimension (fun _ _ => true) (some jSpy) "out" caseC8
        .correctness pvBase = { score := 1 } :=
  ⟨rfl, by simp [versionIdentifyingKeys], rfl, rfl⟩

/-- C8 (amended): on the judge path the evaluator's judge input is a
function of the output and the case's own fields only — so two different
prompt versions yield identical judge calls and scores — but the case's
context dict is forwarded unfiltered (`judgeInput` keeps `tc.context`
as-is); the stripping of version-identifying keys exists only in
`BlindedEvaluator._create_anonymous_context`, which keeps exactly the
non-version-identifying entries. -/
theorem evaluator_judge_input_unfiltered_but_version_blind
    (validate : String → String → Bool) (j : JudgeFn) (output : String)
    (tc : Case) (dim : EvaluationDimension) (pv pv2 : PromptVersion)
    (h : dim = .format_adherence →
      pv.schema_definition = none ∧ pv2.schema_definition = none) :
    evaluate_dimension validate (some j) output tc dim pv =
      { score := (j (judgeInput output tc dim)).score.getD 0 } ∧
    evaluate_dimension validate (some j) output tc dim pv =
      evaluate_dimension validate (some j) output tc dim pv2 ∧
    (judgeInput output tc dim).context = tc.context ∧
    (∀ (ctx : List (String × String)) (k v : String), (k, v) ∈ ctx →
      k ∉ versionIdentifyingKeys →
      (k, v) ∈ (create_anonymous_context (some ctx)).getD []) ∧
    (∀ (ctx : List (String × String)) (k v : String), k ∈ versionIdentifyingKeys →
      (k, v) ∉ (create_anonymous_context (some ctx)).getD []) := by
  refine ⟨?_, ?_, rfl, ?_, ?_⟩
  · cases dim <;> cases hs : pv.schema_definition <;> simp_all [evaluate_dimension]
  · cases dim <;> cases hs : pv.schema_definition <;>
      cases hs2 : pv2.schema_definition <;> simp_all [evaluate_dimension]
  · intro ctx k v hmem hk
    have hne : ctx.isEmpty = false := by
      cases ctx with
      | nil => cases hmem
      | cons a t => rfl
    have hfmem : (k, v) ∈ ctx.filter
        (fun p => ¬versionIdentifyingKeys.contains p.1) := by
      refine List.mem_filter.mpr ⟨hmem, ?_⟩
      simpa using hk
    have hfe : (ctx.filter (fun p => ¬versionIdentifyingKeys.contains p.1)).isEmpty = false := by
      cases hq : ctx.filter (fun p => ¬versionIdentifyingKeys.contains p.1) with
      | nil => rw [hq] at hfmem; cases hfmem
      | cons a t => rfl
    have h1 : create_anonymous_context (some ctx) =
        some (ctx.filter (fun p => ¬versionIdentifyingKeys.contains p.1)) := by
      simp only [create_anonymous_context]
      rw [if_neg (by simp [hne]), if_neg (by rw [hfe]; decide)]
    rw [h1, Option.getD_some]
    exact hfmem
  · intro ctx k v hk hmem
    cases hne : ctx.isEmpty with
    | true =>
      have h1 : create_anonymous_context (some ctx) = none := by
        simp only [create_anonymous_context]
        rw [if_pos hne]
      rw [h1, Option.getD_none] at hmem
      cases hmem
    | false =>
      cases hfe : (ctx.filter (fun p => ¬versionIdentifyingKeys.contains p.1)).isEmpty with
      | true =>
        have h1 : create_anonymous_context (some ctx) = none := by
          simp only [create_anonymous_context]
          rw [if_neg (by simp [hne]), if_pos hfe]
        rw [h1, Option.getD_none] at hmem
        cases hmem
      | false =>
        have h1 : create_anonymous_context (some ctx) =
            some (ctx.filter (fun p => ¬versionIdentifyingKeys.contains p.1)) := by
          simp only [create_anonymous_context]
          rw [if_neg (by simp [hne]), if_neg (by rw [hfe]; decide)]
        rw [h1, Option.getD_some] at hmem
        have h2 := (List.mem_filter.mp hmem).2
        simp [hk] at h2

/-- C8 amended-theorem witness at a concrete non-format dimension. -/
theorem evaluator_judge_input_unfiltered_but_version_blind_witness :
    ((EvaluationDimension.correctness = .format_adherence →
      pvBase.schema_definition = none ∧ pvSchema.schema_definition = none)) ∧
    (evaluate_dimension (fun _ _ => true) (some jSpy) "out" caseC8
        .correctness pvBase =
      { score := (jSpy (judgeInput "out" caseC8 .correctness)).score.getD 0 } ∧
    evaluate_dimension (fun _ _ => true) (some jSpy) "out" caseC8
        .correctness pvBase =
      evaluate_dimension (fun _ _ => true) (some jSpy) "out" caseC8
        .correctness pvSchema ∧
    (judgeInput "out" caseC8 .correctness).context = caseC8.context ∧
    (∀ (ctx : List (String × String)) (k v : String), (k, v) ∈ ctx →
      k ∉ versionIdentifyingKeys →
      (k, v) ∈ (create_anonymous_context (some ctx)).getD []) ∧
    (∀ (ctx : List (String × String)) (k v : String), k ∈ versionIdentifyingKeys →
      (k, v) ∉ (create_anonymous_context (some ctx)).getD [])) :=
  ⟨(fun hc => nomatch hc),
    evaluator_judge_input_unfiltered_but_version_blind (fun _ _ => true) jSpy
      "out" caseC8 .correctness pvBase pvSchema (fun hc => nomatch hc)⟩

end PromptOpt

namespace PromptOpt

/-- Helper: under unique ids, members with equal ids coincide. -/
theorem eq_of_mem_of_id_eq {s : Store} (hnd : NodupIds s) {w v : StoredVersion}
    (hw : w ∈ s) (hv : v ∈ s) (h : w.id = v.id) : w = v :=
  List.inj_on_of_nodup_map hnd hw hv h

/-- Helper: exactly one member matches a present unique id. -/
theorem countP_id_eq_one {s : Store} (vid : ℕ) (hnd : NodupIds s)
    {v : StoredVersion} (hv : v ∈ s) (hvid : v.id = vid) :
    s.countP (fun w => w.id = vid) = 1 := by
  induction s with
  | nil => cases hv
  | cons a t ih =>
    rw [List.countP_cons]
    have hnd2 : a.id ∉ t.map (fun x => x.id) ∧ NodupIds t := by
      simpa [NodupIds, List.nodup_cons] using hnd
    rcases List.mem_cons.mp hv with rfl | hvt
    · have hz : t.countP (fun w => w.id = vid) = 0 := by
        rw [List.countP_eq_zero]
        intro w hw
        simp only [decide_eq_true_eq]
        intro hwid
        exact hnd2.1 (by
          rw [← hvid, ← hwid] at *
          exact (hwid ▸ List.mem_map_of_mem (fun x => x.id) hw))
      simp [hz, hvid]
    · have hane : ¬ a.id = vid := by
        intro hc
        apply hnd2.1
        rw [hc, ← hvid]
        exact List.mem_map_of_mem (fun x => x.id) hvt
      simp [ih hnd2.2 hvt, hane]

/-- Helper: the successful `promote_version` result as a single map. -/
theorem promote_version_some {s : Store} {vid now : ℕ} {v : StoredVersion}
    (hv : get_version s vid = some v) :
    promote_version s vid now =
      some (s.map (fun w =>
        if w.id = vid then
          { w with status := PromptStatus.active, promoted_at := some now }
        else if w.prompt_id = v.prompt_id ∧ w.status = PromptStatus.active then
          { w with status := PromptStatus.deprecated }
        else w)) := by
  unfold promote_version
  rw [hv]
  dsimp only
  rw [List.map_map]
  congr 1
  apply List.map_congr_left
  intro w _
  simp only [Function.comp]
  by_cases h1 : w.id = vid
  · by_cases h2 : w.prompt_id = v.prompt_id ∧ w.status = PromptStatus.active <;>
      simp [h1, h2]
  · by_cases h2 : w.prompt_id = v.prompt_id ∧ w.status = PromptStatus.active <;>
      simp [h1, h2]

end PromptOpt

namespace PromptOpt

/-- Helper: after a successful promotion, the promoted prompt_id has
exactly one active version. -/
theorem activeCount_promote_self {s : Store} {vid now : ℕ} {v : StoredVersion}
    {s' : Store} (hnd : NodupIds s) (hv : get_version s vid = some v)
    (h : promote_version s vid now = some s') :
    activeCount s' v.prompt_id = 1 := by
  have hvmem : v ∈ s := List.mem_of_find?_eq_some hv
  have hvid : v.id = vid := by simpa using List.find?_some hv
  rw [promote_version_some hv, Option.some.injEq] at h
  rw [← h, activeCount, List.countP_map]
  rw [List.countP_congr (q := fun w => w.id = vid)]
  · exact countP_id_eq_one vid hnd hvmem hvid
  · intro w hw
    simp only [Function.comp, decide_eq_true_eq]
    by_cases h1 : w.id = vid
    · have hwv : w = v := eq_of_mem_of_id_eq hnd hw hvmem (by rw [h1, hvid])
      subst hwv
      simp [h1, hvid]
    · by_cases h2 : w.prompt_id = v.prompt_id ∧ w.status = PromptStatus.active
      · simp [h1, h2]
      · simp [h1, h2]

/-- Helper: a successful promotion leaves every other prompt_id's active
count unchanged. -/
theorem activeCount_promote_other {s : Store} {vid now : ℕ} {v : StoredVersion}
    {s' : Store} (hnd : NodupIds s) (hv : get_version s vid = some v)
    (h : promote_version s vid now = some s') (pid : String)
    (hpid : pid ≠ v.prompt_id) :
    activeCount s' pid = activeCount s pid := by
  have hvmem : v ∈ s := List.mem_of_find?_eq_some hv
  have hvid : v.id = vid := by simpa using List.find?_some hv
  have hvp : ¬ v.prompt_id = pid := fun hc => hpid hc.symm
  rw [promote_version_some hv, Option.some.injEq] at h
  rw [← h, activeCount, List.countP_map, activeCount]
  apply List.countP_congr
  intro w hw
  simp only [Function.comp, decide_eq_true_eq]
  by_cases h1 : w.id = vid
  · have hwv : w = v := eq_of_mem_of_id_eq hnd hw hvmem (by rw [h1, hvid])
    subst hwv
    simp [h1, hvp]
  · by_cases h2 : w.prompt_id = v.prompt_id ∧ w.status = PromptStatus.active
    · have hwp : ¬ w.prompt_id = pid := by rw [h2.1]; exact hvp
      simp [h1, h2, hwp, hvp]
    · simp [h1, h2]

/-- Helper: promotion never changes the id column. -/
theorem promote_version_ids {s : Store} {vid now : ℕ} {s' : Store}
    (h : promote_version s vid now = some s') :
    s'.map (fun w => w.id) = s.map (fun w => w.id) := by
  cases hgv : get_version s vid with
  | none =>
    unfold promote_version at h
    rw [hgv] at h
    cases h
  | some v =>
    rw [promote_version_some hgv, Option.some.injEq] at h
    rw [← h, List.map_map]
    apply List.map_congr_left
    intro w _
    simp only [Function.comp]
    by_cases h1 : w.id = vid
    · simp [h1]
    · by_cases h2 : w.prompt_id = v.prompt_id ∧ w.status = PromptStatus.active <;>
        simp [h1, h2]

/-- Helper: one successful promotion preserves the one-active invariant. -/
theorem promote_version_invariant {s : Store} {vid now : ℕ} {s' : Store}
    (hnd : NodupIds s) (hinv : InvariantAll s)
    (h : promote_version s vid now = some s') : InvariantAll s' := by
  cases hgv : get_version s vid with
  | none =>
    unfold promote_version at h
    rw [hgv] at h
    cases h
  | some v =>
    intro pid
    by_cases hpid : pid = v.prompt_id
    · subst hpid
      rw [activeCount_promote_self hnd hgv h]
    · rw [activeCount_promote_other hnd hgv h pid hpid]
      exact hinv pid

/-- Helper: the invariant holds after any sequence of promotions. -/
theorem runPromotes_invariant (s : Store) (hnd : NodupIds s)
    (hinv : InvariantAll s) (calls : List (ℕ × ℕ)) :
    InvariantAll (runPromotes s calls) := by
  induction calls generalizing s with
  | nil => exact hinv
  | cons c rest ih =>
    simp only [runPromotes, List.foldl_cons]
    cases hp : promote_version s c.1 c.2 with
    | none =>
      exact ih s hnd hinv
    | some s2 =>
      have hnd2 : NodupIds s2 := by
        unfold NodupIds
        rw [promote_version_ids hp]
        exact hnd
      exact ih s2 hnd2 (promote_version_invariant hnd hinv hp)

/-- C2: starting from a store with unique ids satisfying the at-most-one-
active-per-prompt invariant, the invariant holds after any sequence of
`promote_version` calls; moreover each successful call makes the promoted
version active, leaves the promoted version's prompt_id with exactly one
active version, and transitions every other previously-active version of
the same prompt_id to deprecated — all in the same step. -/
theorem promote_version_at_most_one_active (s : Store) (hnd : NodupIds s)
    (hinv : InvariantAll s) (calls : List (ℕ × ℕ)) :
    InvariantAll (runPromotes s calls) ∧
    (∀ vid now s' v, promote_version s vid now = some s' →
      get_version s vid = some v →
      (∀ w' ∈ s', w'.id = vid → w'.status = PromptStatus.active) ∧
      activeCount s' v.prompt_id = 1 ∧
      (∀ w ∈ s, w.prompt_id = v.prompt_id → w.status = PromptStatus.active →
        w.id ≠ vid →
        ∃ w' ∈ s', w'.id = w.id ∧ w'.status = PromptStatus.deprecated)) := by
  refine ⟨runPromotes_invariant s hnd hinv calls, ?_⟩
  intro vid now s' v h hgv
  refine ⟨?_, activeCount_promote_self hnd hgv h, ?_⟩
  · intro w' hw' hid
    rw [promote_version_some hgv, Option.some.injEq] at h
    rw [← h] at hw'
    rcases List.mem_map.mp hw' with ⟨w, _, hww⟩
    by_cases h1 : w.id = vid
    · rw [← hww]
      simp [h1]
    · exfalso
      apply h1
      rw [← hid, ← hww]
      by_cases h2 : w.prompt_id = v.prompt_id ∧ w.status = PromptStatus.active <;>
        simp [h1, h2]
  · intro w hw hwp hwa hwid
    rw [promote_version_some hgv, Option.some.injEq] at h
    have hg : (if w.id = vid then
          { w with status := PromptStatus.active, promoted_at := some now }
        else if w.prompt_id = v.prompt_id ∧ w.status = PromptStatus.active then
          { w with status := PromptStatus.deprecated }
        else w) = { w with status := PromptStatus.deprecated } := by
      rw [if_neg hwid, if_pos ⟨hwp, hwa⟩]
    refine ⟨{ w with status := PromptStatus.deprecated }, ?_, rfl, rfl⟩
    rw [← h]
    have hmem := List.mem_map_of_mem (fun u =>
        if u.id = vid then
          { u with status := PromptStatus.active, promoted_at := some now }
        else if u.prompt_id = v.prompt_id ∧ u.status = PromptStatus.active then
          { u with status := PromptStatus.deprecated }
        else u) hw
    dsimp only at hmem
    rw [hg] at hmem
    exact hmem

end PromptOpt

namespace PromptOpt

/-- C2 witness at `storeC2` with a single promotion of version 2. -/
theorem promote_version_at_most_one_active_witness :
    NodupIds storeC2 ∧ InvariantAll storeC2 ∧
    (InvariantAll (runPromotes storeC2 [(2, 5)]) ∧
     (∀ vid now s' v, promote_version storeC2 vid now = some s' →
       get_version storeC2 vid = some v →
       (∀ w' ∈ s', w'.id = vid → w'.status = PromptStatus.active) ∧
       activeCount s' v.prompt_id = 1 ∧
       (∀ w ∈ storeC2, w.prompt_id = v.prompt_id →
         w.status = PromptStatus.active → w.id ≠ vid →
         ∃ w' ∈ s', w'.id = w.id ∧ w'.status = PromptStatus.deprecated))) := by
  have hnd : NodupIds storeC2 := by unfold NodupIds; decide
  have hinv : InvariantAll storeC2 := by
    intro pid
    by_cases hp : ("p" : String) = pid
    · subst hp
      decide
    · by_cases hq : ("q" : String) = pid
      · subst hq
        decide
      · simp [InvariantAll, activeCount, storeC2, List.countP_cons, hp, hq]
  exact ⟨hnd, hinv, promote_version_at_most_one_active storeC2 hnd hinv [(2, 5)]⟩

/-- C3: evaluating `promote` twice on the same experiment.  The promoted
flag ends (and stays) `true`, but the second call appends a second
PROMPT_PROMOTED audit event for the same transition: the source consults
neither the experiment's `promoted` flag nor the audit log before
logging, so the single-promotion contract of the claim is not enforced by
the code. -/
theorem promote_twice_double_logs :
    ∃ st1 st2,
      promote stC3 1 2 none 10 = some st1 ∧
      promote st1 1 2 none 11 = some st2 ∧
      st1.experiments.map (fun e => e.promoted) = [true] ∧
      st2.experiments.map (fun e => e.promoted) = [true] ∧
      promotedEventCount st1.audit 2 = 1 ∧
      promotedEventCount st2.audit 2 = 2 :=
  ⟨_, _, rfl, rfl, rfl, rfl, rfl, rfl⟩

end PromptOpt

namespace PromptOpt

/-- C10: the cache key depends only on prompt, system prompt and the
non-sampling kwargs — `generate_key` is invariant under dropping
`temperature`/`max_tokens` — so a `set` with one temperature/max_tokens
pair is hit by a `get` with different ones, given an enabled cache and a
read before TTL expiry. -/
theorem cache_key_ignores_sampling_params (c : LLMCache)
    (prompt response : String) (system_prompt : Option String)
    (m t1 t2 mt1 mt2 : String) (now0 now1 : ℚ)
    (hen : c.enabled = true) (httl : now1 - now0 < c.ttl) :
    cache_get (cache_set c prompt response system_prompt
        [("model", m), ("temperature", t1), ("max_tokens", mt1)] now0)
      prompt system_prompt
      [("model", m), ("temperature", t2), ("max_tokens", mt2)] now1 =
      some response ∧
    (∀ kwargs : KwArgs, generate_key prompt system_prompt kwargs =
      generate_key prompt system_prompt (filterSampling kwargs)) := by
  constructor
  · have hkey : generate_key prompt system_prompt
        [("model", m), ("temperature", t2), ("max_tokens", mt2)] =
        generate_key prompt system_prompt
        [("model", m), ("temperature", t1), ("max_tokens", mt1)] := by
      simp [generate_key, filterSampling]
    unfold cache_set cache_get
    rw [if_neg (by simp [hen]), if_neg (by simp [hen])]
    rw [hkey]
    simp [List.find?_cons, httl]
  · intro kwargs
    have hidem : filterSampling (filterSampling kwargs) = filterSampling kwargs := by
      simp [filterSampling, List.filter_filter]
    simp [generate_key, hidem]

/-- C10 witness: concrete cache round-trip with differing sampling
parameters. -/
theorem cache_key_ignores_sampling_params_witness :
    ({ entries := [], ttl := 3600, enabled := true } : LLMCache).enabled = true ∧
    ((10 : ℚ) - 0 < ({ entries := [], ttl := 3600, enabled := true } : LLMCache).ttl) ∧
    (cache_get (cache_set { entries := [], ttl := 3600, enabled := true }
        "hello" "resp" (some "sys")
        [("model", "gpt"), ("temperature", "0.7"), ("max_tokens", "100")] 0)
      "hello" (some "sys")
      [("model", "gpt"), ("temperature", "0.0"), ("max_tokens", "50")] 10 =
      some "resp" ∧
    (∀ kwargs : KwArgs, generate_key "hello" (some "sys") kwargs =
      generate_key "hello" (some "sys") (filterSampling kwargs))) :=
  ⟨rfl, by norm_num,
    cache_key_ignores_sampling_params { entries := [], ttl := 3600, enabled := true }
      "hello" "resp" (some "sys") "gpt" "0.7" "0.0" "100" "50" 0 10 rfl (by norm_num)⟩

end PromptOpt
